import Mathlib

/-!
Shallow embedding of the authentication core of the Scheduler repository
(backend/src/auth: credentials.ts, session.ts, recovery.ts, routes.ts).

Conventions of the embedding:
* Byte strings are `List Nat`; timestamps are `Nat` (milliseconds).
* Node `Buffer.from(s, 'hex')` is `hexDecodeStr`: it decodes complete
  valid hex pairs from the start of the string and stops (truncates) at
  the first invalid character or incomplete pair, as Node documents.
* Node `crypto.timingSafeEqual` throws when the two buffers have
  different lengths; we model a throwing call as `Option.none` and the
  surrounding try/catch in the source as a `match` on that option.
* `pbkdf2Sync` (the derive/stretch function), `isValidEmojiId`,
  `isEmojiIdTaken`, `generateUniqueEmojiId`, the WHATWG URL check inside
  `isPlausibleIcalUrl`, random salt/token generation and the external
  iCal fetch are outside the embedded core (library code, external I/O,
  or repository files not present); they enter the definitions as
  explicit function or value parameters, and the theorems quantify over
  them or fix them where the routed code does not inspect their output.
* The relational store is a record of three lists (users, recovery
  codes, sessions); each SQL statement of the source becomes one pure
  step on that record, matching the source statement by statement.
-/

namespace Sched

/-- Value of one hex digit, or none for a non-hex character. -/
def hexDigitVal (c : Char) : Option Nat :=
  if ('0' ≤ c ∧ c ≤ '9') then some (c.toNat - '0'.toNat)
  else if ('a' ≤ c ∧ c ≤ 'f') then some (c.toNat - 'a'.toNat + 10)
  else if ('A' ≤ c ∧ c ≤ 'F') then some (c.toNat - 'A'.toNat + 10)
  else none

/-- Node Buffer.from(s, hex): decode complete valid pairs from the
start, truncating at the first invalid character or incomplete pair. -/
def hexDecode : List Char → List Nat
  | c1 :: c2 :: rest =>
    match hexDigitVal c1, hexDigitVal c2 with
    | some h, some l => (16 * h + l) :: hexDecode rest
    | _, _ => []
  | _ => []

def hexDecodeStr (s : String) : List Nat := hexDecode s.data

/-- Node crypto.timingSafeEqual: throws (none) when lengths differ,
otherwise reports byte equality. -/
def timingSafeEqual (a b : List Nat) : Option Bool :=
  if a.length = b.length then some (a = b) else none

/-! ## credentials.ts -/

structure HashedCredential where
  hash : String
  salt : String
deriving DecidableEq, Repr

/-- hashIcalUrl from credentials.ts: the fresh random salt is the
`salt` parameter; `derive` is pbkdf2Sync (hex output). -/
def hashIcalUrl (derive : String → String → String) (url salt : String) :
    HashedCredential :=
  { hash := derive url salt, salt := salt }

/-- verifyIcalUrl from credentials.ts: re-derive under the stored salt,
then timingSafeEqual over the hex-decoded buffers; a throw is caught
and turned into false. -/
def verifyIcalUrl (derive : String → String → String)
    (candidateUrl : String) (stored : HashedCredential) : Bool :=
  let candidateHash := derive candidateUrl stored.salt
  match timingSafeEqual (hexDecodeStr candidateHash) (hexDecodeStr stored.hash) with
  | some b => b
  | none => false

/-- Toy stand-in for pbkdf2Sync used only to instantiate theorems at
concrete inputs. -/
def toyDerive (url : String) (_salt : String) : String :=
  if url = "a" then "00" else "01"

/-- Claim C5: verifying a credential against the pair produced by
hashing that same credential returns true, for every derive function
and every salt; and whenever the derived digests of two sources differ
(the overwhelming-probability no-collision event, stated on the decoded
buffers), verifying the one against the stored pair of the other
returns false. -/
theorem verify_roundtrip_and_distinct :
    (∀ (derive : String → String → String) (s salt : String),
      verifyIcalUrl derive s (hashIcalUrl derive s salt) = true) ∧
    (∀ (derive : String → String → String) (s1 s2 salt : String),
      hexDecodeStr (derive s1 salt) ≠ hexDecodeStr (derive s2 salt) →
      verifyIcalUrl derive s1 (hashIcalUrl derive s2 salt) = false) := by
  constructor
  · intro derive s salt
    simp [verifyIcalUrl, hashIcalUrl, timingSafeEqual]
  · intro derive s1 s2 salt hne
    simp only [verifyIcalUrl, hashIcalUrl, timingSafeEqual]
    by_cases hlen : (hexDecodeStr (derive s1 salt)).length
        = (hexDecodeStr (derive s2 salt)).length
    · simp [hlen, hne]
    · simp [hlen]

/-- Witness for C5 at concrete inputs: the roundtrip holds for the toy
derive function, and distinct sources with distinct digests verify
false. -/
theorem verify_roundtrip_and_distinct_witness :
    verifyIcalUrl toyDerive "a" (hashIcalUrl toyDerive "a" "s") = true ∧
    verifyIcalUrl toyDerive "a" (hashIcalUrl toyDerive "b" "s") = false := by
  refine ⟨verify_roundtrip_and_distinct.1 toyDerive "a" "s",
    verify_roundtrip_and_distinct.2 toyDerive "a" "b" "s" ?_⟩
  decide

/-- Claim C7 (amended): verifyIcalUrl is a total boolean function — the
only throwing call, timingSafeEqual, is caught — and it returns true
exactly when the hex-decoded prefix of the stored hash equals the
hex-decoded candidate digest; Node hex decoding truncates at the first
invalid character, so malformed stored values fail closed unless their
valid-hex prefix decodes to exactly the candidate digest. -/
theorem verify_eq_decode_eq (derive : String → String → String)
    (candidateUrl : String) (stored : HashedCredential) :
    verifyIcalUrl derive candidateUrl stored
      = decide (hexDecodeStr (derive candidateUrl stored.salt)
                  = hexDecodeStr stored.hash) := by
  by_cases h : hexDecodeStr (derive candidateUrl stored.salt) = hexDecodeStr stored.hash
  · simp [verifyIcalUrl, timingSafeEqual, h]
  · by_cases hlen : (hexDecodeStr (derive candidateUrl stored.salt)).length
        = (hexDecodeStr stored.hash).length
    · simp [verifyIcalUrl, timingSafeEqual, hlen, h]
    · simp [verifyIcalUrl, timingSafeEqual, hlen, h]

/-- Witness for C7 amended theorem at a concrete input. -/
theorem verify_eq_decode_eq_witness :
    verifyIcalUrl toyDerive "a" ⟨"0000", "s"⟩
      = decide (hexDecodeStr (toyDerive "a" "s") = hexDecodeStr "0000") :=
  verify_eq_decode_eq toyDerive "a" ⟨"0000", "s"⟩

/-- Claim C7 counterexample: a malformed stored hash (its second
character is not a hex digit, so the stored value is not valid hex)
on which verifyIcalUrl returns true rather than failing closed to
false: hex decoding truncates the garbage and the surviving prefix
matches the candidate digest. -/
theorem verify_malformed_true :
    verifyIcalUrl toyDerive "a" ⟨"00zz", "s"⟩ = true ∧
    hexDigitVal 'z' = none := by
  decide

/-! ## Data model: the three relations of the store -/

/-- Row of the users table: id (primary key), emoji_id, ical_hash,
ical_salt. -/
structure UserRow where
  id : Nat
  emojiId : String
  icalHash : String
  icalSalt : String
deriving DecidableEq, Repr

/-- Row of the recovery_codes table (recovery.ts StoredRecoveryCode
plus the owning user_id column of the schema). -/
structure StoredRecoveryCode where
  id : Nat
  userId : Nat
  hash : String
  salt : String
  used : Bool
deriving DecidableEq, Repr

/-- Row of the sessions table: id, user_id, token_hash, expires_at. -/
structure SessionRow where
  id : Nat
  userId : Nat
  tokenHash : String
  expiresAt : Nat
deriving DecidableEq, Repr

/-- The relational store: single source of truth. -/
structure DB where
  users : List UserRow
  codes : List StoredRecoveryCode
  sessions : List SessionRow
deriving DecidableEq, Repr

/-! ## session.ts -/

/-- SESSION_TTL_HOURS = 24 * 7, converted to milliseconds as in
createSession. -/
def sessionTTLms : Nat := 24 * 7 * 60 * 60 * 1000

/-- Result row of validateSession: user_id and emoji_id. -/
structure Session where
  userId : Nat
  emojiId : String
deriving DecidableEq, Repr

/-- createSession from session.ts: INSERT a sessions row holding only
the token hash and expires_at = now + TTL; hashToken is the SHA-256
digest function, token the fresh random token. -/
def createSession (hashToken : String → String) (db : DB)
    (userId : Nat) (token : String) (sid now : Nat) : DB :=
  { db with sessions := db.sessions ++
      [{ id := sid, userId := userId, tokenHash := hashToken token,
         expiresAt := now + sessionTTLms }] }

/-- validateSession from session.ts: SELECT s.user_id, u.emoji_id FROM
sessions s JOIN users u ON u.id = s.user_id WHERE s.token_hash = $1 AND
s.expires_at > NOW(); rows[0] or null. -/
def validateSession (hashToken : String → String) (users : List UserRow)
    (sessions : List SessionRow) (now : Nat) (token : String) :
    Option Session :=
  let th := hashToken token
  let rows := sessions.filterMap (fun s =>
    if s.tokenHash = th ∧ now < s.expiresAt then
      (users.find? (fun u => u.id == s.userId)).map
        (fun u => { userId := s.userId, emojiId := u.emojiId : Session })
    else none)
  rows.head?

/-- deleteSession from session.ts: DELETE FROM sessions WHERE
token_hash = $1. -/
def deleteSession (hashToken : String → String)
    (sessions : List SessionRow) (token : String) : List SessionRow :=
  sessions.filter (fun s => ¬ s.tokenHash = hashToken token)

/-- purgeExpiredSessions from session.ts: DELETE FROM sessions WHERE
expires_at <= NOW(). -/
def purgeExpiredSessions (sessions : List SessionRow) (now : Nat) :
    List SessionRow :=
  sessions.filter (fun s => ¬ s.expiresAt ≤ now)

/-- Claim C8 (amended): purgeExpiredSessions keeps exactly the rows
whose expires_at is strictly in the future — equivalently it deletes
exactly the rows with expires_at at or before now, which includes a row
expiring at the current instant even though that instant is not in the
past. Every still-valid row is left unchanged. -/
theorem purge_keeps_exactly_unexpired (sessions : List SessionRow)
    (now : Nat) (s : SessionRow) :
    s ∈ purgeExpiredSessions sessions now ↔
      s ∈ sessions ∧ now < s.expiresAt := by
  simp [purgeExpiredSessions, List.mem_filter, Nat.lt_iff_add_one_le,
    Nat.not_le]

/-- Claim C8 counterexample: a session row whose expires_at equals the
current instant is not in the past (expiresAt < now is false), yet
purgeExpiredSessions deletes it — so the set of deleted rows is not
exactly the rows in the past. -/
theorem purge_deletes_boundary_row :
    purgeExpiredSessions
        [{ id := 1, userId := 1, tokenHash := "h", expiresAt := 5 }] 5 = [] ∧
    ¬ (({ id := 1, userId := 1, tokenHash := "h", expiresAt := 5 } :
        SessionRow).expiresAt < 5) := by
  decide

/-- Witness for the C8 amended theorem at a concrete row and instant:
a still-valid row is kept. -/
theorem purge_keeps_exactly_unexpired_witness :
    (({ id := 1, userId := 1, tokenHash := "h", expiresAt := 9 } : SessionRow)
        ∈ purgeExpiredSessions
            [{ id := 1, userId := 1, tokenHash := "h", expiresAt := 9 }] 5 ↔
      ({ id := 1, userId := 1, tokenHash := "h", expiresAt := 9 } : SessionRow)
        ∈ [{ id := 1, userId := 1, tokenHash := "h", expiresAt := 9 :
              SessionRow }] ∧ 5 < 9) :=
  purge_keeps_exactly_unexpired
    [{ id := 1, userId := 1, tokenHash := "h", expiresAt := 9 }] 5
    { id := 1, userId := 1, tokenHash := "h", expiresAt := 9 }

/-- Claim C6: under referential integrity (every session row has an
owning user row), session validation returns some result exactly when a
sessions row carrying the hash of the presented token exists with
expires_at strictly in the future; any returned result carries the
owning account id and its emoji handle; and in every other case the
result is the single value none, so an existed-but-expired token and a
never-existed token are indistinguishable. -/
theorem validateSession_spec (hashToken : String → String)
    (users : List UserRow) (sessions : List SessionRow)
    (now : Nat) (token : String)
    (hfk : ∀ s ∈ sessions, ∃ u ∈ users, u.id = s.userId) :
    ((validateSession hashToken users sessions now token).isSome ↔
      ∃ s ∈ sessions, s.tokenHash = hashToken token ∧ now < s.expiresAt) ∧
    (∀ r, validateSession hashToken users sessions now token = some r →
      ∃ s ∈ sessions, s.tokenHash = hashToken token ∧ now < s.expiresAt ∧
        ∃ u ∈ users, u.id = s.userId ∧
          r = { userId := s.userId, emojiId := u.emojiId }) := by
  have hval : validateSession hashToken users sessions now token =
      (sessions.filterMap (fun s =>
        if s.tokenHash = hashToken token ∧ now < s.expiresAt then
          (users.find? (fun u => u.id == s.userId)).map
            (fun u => { userId := s.userId, emojiId := u.emojiId : Session })
        else none)).head? := rfl
  constructor
  · rw [hval, List.head?_isSome]
    constructor
    · intro hne
      rcases List.exists_mem_of_ne_nil _ hne with ⟨r, hr⟩
      rcases List.mem_filterMap.mp hr with ⟨s, hs, hmap⟩
      by_cases hc : s.tokenHash = hashToken token ∧ now < s.expiresAt
      · exact ⟨s, hs, hc⟩
      · rw [if_neg hc] at hmap
        exact absurd hmap (by simp)
    · rintro ⟨s, hs, hhash, hexp⟩
      rcases hfk s hs with ⟨u, hu, huid⟩
      rcases hfind : users.find? (fun x => x.id == s.userId) with _ | u2
      · exact absurd (by simpa using huid)
          (List.find?_eq_none.mp hfind u hu)
      · apply List.ne_nil_of_mem (a :=
          { userId := s.userId, emojiId := u2.emojiId : Session })
        apply List.mem_filterMap.mpr
        refine ⟨s, hs, ?_⟩
        rw [if_pos ⟨hhash, hexp⟩, hfind]
        rfl
  · intro r hr
    rw [hval] at hr
    have hmem : r ∈ sessions.filterMap (fun s =>
        if s.tokenHash = hashToken token ∧ now < s.expiresAt then
          (users.find? (fun u => u.id == s.userId)).map
            (fun u => { userId := s.userId, emojiId := u.emojiId : Session })
        else none) :=
      List.mem_of_mem_head? (by rw [hr]; rfl)
    rcases List.mem_filterMap.mp hmem with ⟨s, hs, hmap⟩
    by_cases hc : s.tokenHash = hashToken token ∧ now < s.expiresAt
    · rw [if_pos hc] at hmap
      rcases hfind : users.find? (fun u => u.id == s.userId) with _ | u
      · rw [hfind] at hmap
        exact absurd hmap (by simp)
      · rw [hfind] at hmap
        have hu : u ∈ users := List.mem_of_find?_eq_some hfind
        have huid : u.id = s.userId := by
          simpa using List.find?_some hfind
        refine ⟨s, hs, hc.1, hc.2, u, hu, huid, ?_⟩
        simpa using hmap.symm
    · rw [if_neg hc] at hmap
      exact absurd hmap (by simp)

/-- Witness for C6 at a concrete store: a matching unexpired session
row makes validation succeed. -/
theorem validateSession_spec_witness :
    ((validateSession (fun t => t ++ "H")
        [{ id := 3, emojiId := "EEEE", icalHash := "", icalSalt := "" }]
        [{ id := 1, userId := 3, tokenHash := "tH", expiresAt := 10 }]
        5 "t").isSome ↔
      ∃ s ∈ [{ id := 1, userId := 3, tokenHash := "tH", expiresAt := 10 :
                SessionRow }],
        s.tokenHash = (fun t => t ++ "H") "t" ∧ 5 < s.expiresAt) := by
  have h := validateSession_spec (fun t => t ++ "H")
    [{ id := 3, emojiId := "EEEE", icalHash := "", icalSalt := "" }]
    [{ id := 1, userId := 3, tokenHash := "tH", expiresAt := 10 }]
    5 "t" (by
      intro s hs
      simp only [List.mem_singleton] at hs
      subst hs
      exact ⟨⟨3, "EEEE", "", ""⟩, List.mem_singleton.mpr rfl, rfl⟩)
  exact h.1

/-! ## recovery.ts

consumeRecoveryCode is split at its two await points exactly as the
source runs: a SELECT of the unused rows of the account, a synchronous
matching loop over that snapshot, and an UPDATE by row id applied to
the live table. The sequential function is the composition of the
phases; the concurrency claim is settled on interleavings of the
phases of two calls. -/

/-- The SELECT of consumeRecoveryCode: rows of the account with
used = false, in table order. -/
def consumeSelect (codes : List StoredRecoveryCode) (userId : Nat) :
    List StoredRecoveryCode :=
  codes.filter (fun r => r.userId == userId && r.used == false)

/-- One iteration of the matching loop: pbkdf2 of the candidate under
the row salt (hashCode in the source), then timingSafeEqual on the
hex-decoded buffers; a throw is caught and the loop continues, which
is the same as a non-match. -/
def codeMatches (hashCode : String → String → String)
    (candidate : String) (r : StoredRecoveryCode) : Bool :=
  match timingSafeEqual (hexDecodeStr (hashCode candidate r.salt))
      (hexDecodeStr r.hash) with
  | some b => b
  | none => false

/-- The decision of the loop: id of the first matching row of the
snapshot, if any. -/
def consumeDecide (hashCode : String → String → String)
    (snapshot : List StoredRecoveryCode) (candidate : String) :
    Option Nat :=
  (snapshot.find? (codeMatches hashCode candidate)).map (fun r => r.id)

/-- UPDATE recovery_codes SET used = true WHERE id = $1. -/
def markUsed (codes : List StoredRecoveryCode) (id : Nat) :
    List StoredRecoveryCode :=
  codes.map (fun r => if r.id == id then { r with used := true } else r)

/-- Tail of consumeRecoveryCode: on a matched id, UPDATE the live table
and return true; otherwise return false. -/
def consumeApply (codes : List StoredRecoveryCode) (d : Option Nat) :
    Bool × List StoredRecoveryCode :=
  match d with
  | some i => (true, markUsed codes i)
  | none => (false, codes)

/-- consumeRecoveryCode from recovery.ts, run without interleaving:
select, decide on that snapshot, apply to the same table. -/
def consumeRecoveryCode (hashCode : String → String → String)
    (codes : List StoredRecoveryCode) (userId : Nat)
    (candidate : String) : Bool × List StoredRecoveryCode :=
  consumeApply codes (consumeDecide hashCode (consumeSelect codes userId) candidate)

/-- storeRecoveryCodes from recovery.ts: BEGIN, one INSERT per code,
COMMIT; on any failure ROLLBACK leaves the table unchanged and the
error is rethrown. The DB-assigned ids start at startId; insFails
models whether one of the inserts fails. -/
def storeRecoveryCodes (db : DB) (userId : Nat)
    (newCodes : List (String × String)) (startId : Nat)
    (insFails : Bool) : Except DB DB :=
  if insFails then Except.error db
  else Except.ok { db with codes := db.codes ++
    (newCodes.enum.map (fun p =>
      { id := startId + p.1, userId := userId, hash := p.2.1,
        salt := p.2.2, used := false })) }

/-- remainingRecoveryCodes from recovery.ts: SELECT COUNT of unused
rows of the account. -/
def remainingRecoveryCodes (codes : List StoredRecoveryCode)
    (userId : Nat) : Nat :=
  (codes.filter (fun r => r.userId == userId && r.used == false)).length

/-- Toy stand-in for the pbkdf2 code hash, used only to instantiate
theorems at concrete inputs. -/
def toyHashCode (candidate : String) (_salt : String) : String :=
  if candidate = "c" then "aa" else "bb"

/-- A concrete one-row code table for concrete instantiations: user 7
holds one unused code whose stored hash matches candidate "c" under
toyHashCode. -/
def toyCodes : List StoredRecoveryCode :=
  [{ id := 1, userId := 7, hash := "aa", salt := "s", used := false }]

/-- find? returns the unique element of the list satisfying the
predicate. -/
theorem find?_eq_some_of_unique {α : Type} (p : α → Bool) (l : List α)
    (a : α) (ha : a ∈ l) (hpa : p a = true)
    (huniq : ∀ b ∈ l, p b = true → b = a) :
    l.find? p = some a := by
  induction l with
  | nil => cases ha
  | cons h t ih =>
    by_cases hp : p h = true
    · rw [List.find?_cons_of_pos _ hp]
      rw [huniq h (List.mem_cons_self _ _) hp]
    · rw [List.find?_cons_of_neg _ hp]
      apply ih
      · rcases List.mem_cons.mp ha with rfl | hmem
        · exact absurd hpa hp
        · exact hmem
      · intro b hb hpb
        exact huniq b (List.mem_cons_of_mem _ hb) hpb

/-- markUsed with an id that no row carries is the identity. -/
theorem markUsed_of_no_id (t : List StoredRecoveryCode) (i : Nat)
    (h : ∀ y ∈ t, ¬ y.id = i) : markUsed t i = t := by
  induction t with
  | nil => rfl
  | cons a t ih =>
    have hb : (a.id == i) = false := by
      simp [h a (List.mem_cons_self _ _)]
    have ht : markUsed t i = t :=
      ih (fun y hy => h y (List.mem_cons_of_mem _ hy))
    rw [markUsed, List.map_cons]
    rw [markUsed] at ht
    rw [ht, hb]
    simp

/-- Under distinct row ids, marking the id of an unused member row
increases the number of used rows by exactly one. -/
theorem countP_markUsed (codes : List StoredRecoveryCode)
    (r : StoredRecoveryCode)
    (hnd : (codes.map (fun x => x.id)).Nodup) (hr : r ∈ codes)
    (hunused : r.used = false) :
    (markUsed codes r.id).countP (fun x => x.used)
      = codes.countP (fun x => x.used) + 1 := by
  induction codes with
  | nil => cases hr
  | cons a t ih =>
    rw [List.map_cons, List.nodup_cons] at hnd
    rcases List.mem_cons.mp hr with rfl | hrt
    · have hT : markUsed t r.id = t := by
        apply markUsed_of_no_id
        intro y hy hid
        exact hnd.1 (hid ▸ List.mem_map_of_mem (fun x => x.id) hy)
      rw [markUsed, List.map_cons]
      rw [markUsed] at hT
      rw [hT]
      simp [List.countP_cons, hunused]
    · have haid : ¬ a.id = r.id := by
        intro he
        exact hnd.1 (he ▸ List.mem_map_of_mem (fun x => x.id) hrt)
      have hb : (a.id == r.id) = false := by simp [haid]
      have ht := ih hnd.2 hrt
      rw [markUsed, List.map_cons]
      rw [markUsed] at ht
      rw [hb]
      simp only [Bool.false_eq_true, if_false, List.countP_cons, ht]
      omega

/-- Claim C3: refuted on the code. consumeRecoveryCode is a SELECT, a
matching loop, and an UPDATE by id — a read-then-write, not a single
atomic unit. In the interleaving where two calls presenting the same
still-unused valid code for the same account both complete their
SELECT before either UPDATE runs (both awaits resolve first), the
second call still sees the pre-update snapshot, matches, runs its own
UPDATE, and also returns true: both simultaneous calls succeed,
against the exactly-one-success requirement. Evaluated at a concrete
store holding one unused matching code for account 7. -/
theorem concurrent_consume_both_succeed :
    (consumeApply toyCodes
      (consumeDecide toyHashCode (consumeSelect toyCodes 7) "c")).1 = true ∧
    (consumeApply
      (consumeApply toyCodes
        (consumeDecide toyHashCode (consumeSelect toyCodes 7) "c")).2
      (consumeDecide toyHashCode (consumeSelect toyCodes 7) "c")).1 = true := by
  decide

/-- When the account holds a unique unused matching row, sequential
consumeRecoveryCode returns true and updates the table by that row id
(shared derivation for the consumption theorems). -/
theorem consume_eq_of_unique_match (hashCode : String → String → String)
    (codes : List StoredRecoveryCode) (uid : Nat) (cand : String)
    (r : StoredRecoveryCode)
    (hr : r ∈ codes) (huid : r.userId = uid) (hunused : r.used = false)
    (hm : codeMatches hashCode cand r = true)
    (huniq : ∀ x ∈ codes, x.userId = uid → x.used = false →
      codeMatches hashCode cand x = true → x = r) :
    consumeRecoveryCode hashCode codes uid cand
      = (true, markUsed codes r.id) := by
  have hsel : r ∈ consumeSelect codes uid := by
    rw [consumeSelect, List.mem_filter]
    exact ⟨hr, by simp [huid, hunused]⟩
  have hseluniq : ∀ x ∈ consumeSelect codes uid,
      codeMatches hashCode cand x = true → x = r := by
    intro x hx hmx
    rw [consumeSelect, List.mem_filter] at hx
    have hx2 := hx.2
    simp only [Bool.and_eq_true, beq_iff_eq] at hx2
    exact huniq x hx.1 hx2.1 hx2.2 hmx
  have hfind : (consumeSelect codes uid).find?
      (codeMatches hashCode cand) = some r :=
    find?_eq_some_of_unique _ _ _ hsel hm hseluniq
  rw [consumeRecoveryCode, consumeDecide, hfind]
  rfl

/-- Claim C4: sequential consumption is exactly-once. When the account
holds a unique unused row matching the presented code (and row ids are
distinct, as the primary key guarantees), consuming returns true and
updates exactly that row to used (every row with a different id is
kept unchanged); consuming the same code again returns false and
leaves the table unchanged; and no operation of the vault ever resets
a used flag: a used row survives any later consume call unchanged. -/
theorem consume_exactly_once (hashCode : String → String → String)
    (codes : List StoredRecoveryCode) (uid : Nat) (cand : String)
    (r : StoredRecoveryCode)
    (hnd : (codes.map (fun x => x.id)).Nodup)
    (hr : r ∈ codes) (huid : r.userId = uid) (hunused : r.used = false)
    (hm : codeMatches hashCode cand r = true)
    (huniq : ∀ x ∈ codes, x.userId = uid → x.used = false →
      codeMatches hashCode cand x = true → x = r) :
    consumeRecoveryCode hashCode codes uid cand
      = (true, markUsed codes r.id) ∧
    { r with used := true } ∈ markUsed codes r.id ∧
    (∀ x ∈ codes, x.id ≠ r.id → x ∈ markUsed codes r.id) ∧
    (markUsed codes r.id).countP (fun x => x.used)
      = codes.countP (fun x => x.used) + 1 ∧
    consumeRecoveryCode hashCode (markUsed codes r.id) uid cand
      = (false, markUsed codes r.id) ∧
    (∀ (codes2 : List StoredRecoveryCode) (uid2 : Nat) (cand2 : String)
       (x : StoredRecoveryCode), x ∈ codes2 → x.used = true →
       x ∈ (consumeRecoveryCode hashCode codes2 uid2 cand2).2) := by
  have h1 : consumeRecoveryCode hashCode codes uid cand
      = (true, markUsed codes r.id) :=
    consume_eq_of_unique_match hashCode codes uid cand r hr huid hunused hm huniq
  have h2 : { r with used := true } ∈ markUsed codes r.id := by
    rw [markUsed]
    refine List.mem_map.mpr ⟨r, hr, ?_⟩
    simp
  have h3 : ∀ x ∈ codes, x.id ≠ r.id → x ∈ markUsed codes r.id := by
    intro x hx hne
    rw [markUsed]
    refine List.mem_map.mpr ⟨x, hx, ?_⟩
    have hb : (x.id == r.id) = false := by simp [hne]
    simp [hb]
  have hnomatch : ∀ x ∈ consumeSelect (markUsed codes r.id) uid,
      ¬ codeMatches hashCode cand x = true := by
    intro x hx hmx
    rw [consumeSelect, List.mem_filter] at hx
    rcases hx with ⟨hxm, hxp⟩
    simp only [Bool.and_eq_true, beq_iff_eq] at hxp
    rw [markUsed] at hxm
    rcases List.mem_map.mp hxm with ⟨y, hy, himg⟩
    by_cases hyid : (y.id == r.id) = true
    · rw [if_pos hyid] at himg
      rw [← himg] at hxp
      simp at hxp
    · rw [if_neg hyid] at himg
      subst himg
      have hyr : y = r := huniq y hy hxp.1 hxp.2 hmx
      subst hyr
      simp at hyid
  have h4 : consumeRecoveryCode hashCode (markUsed codes r.id) uid cand
      = (false, markUsed codes r.id) := by
    rw [consumeRecoveryCode, consumeDecide, List.find?_eq_none.mpr hnomatch]
    rfl
  have h5 : ∀ (codes2 : List StoredRecoveryCode) (uid2 : Nat)
      (cand2 : String) (x : StoredRecoveryCode), x ∈ codes2 →
      x.used = true → x ∈ (consumeRecoveryCode hashCode codes2 uid2 cand2).2 := by
    intro codes2 uid2 cand2 x hx hu
    rw [consumeRecoveryCode]
    cases hd : consumeDecide hashCode (consumeSelect codes2 uid2) cand2 with
    | none => simpa [consumeApply] using hx
    | some i =>
      simp only [consumeApply]
      rw [markUsed]
      refine List.mem_map.mpr ⟨x, hx, ?_⟩
      by_cases hb : (x.id == i) = true
      · rw [if_pos hb]
        cases x with
        | mk xid xuid xh xs xu =>
          simp only at hu
          rw [hu]
      · rw [if_neg hb]
  exact ⟨h1, h2, h3, countP_markUsed codes r hnd hr hunused, h4, h5⟩

/-- Witness for C4 on the concrete one-row toy store: the first
consume succeeds and marks the row, the second consume of the same
code fails and changes nothing. -/
theorem consume_exactly_once_witness :
    consumeRecoveryCode toyHashCode toyCodes 7 "c"
      = (true, markUsed toyCodes 1) ∧
    consumeRecoveryCode toyHashCode (markUsed toyCodes 1) 7 "c"
      = (false, markUsed toyCodes 1) := by
  have h := consume_exactly_once toyHashCode toyCodes 7 "c"
    { id := 1, userId := 7, hash := "aa", salt := "s", used := false }
    (by decide) (by decide) rfl rfl (by decide) (by decide)
  exact ⟨h.1, h.2.2.2.2.1⟩

/-! ## routes.ts — the auth orchestrator

Request body fields are modeled as they reach the handlers: a missing
field and an empty string are both falsy in the truthiness tests of
the source, so optional fields are `Option String` and the JS test
`if (x)` is `truthy`. Responses are the HTTP status paired with the
JSON body; failure bodies carry the error message string of the
source. The external collaborators (emoji-id module, URL parsing, the
iCal fetch, randomness) are parameters, as in the source they are
imports whose outputs the handlers only branch on. -/

/-- Truthiness of an optional string field of the request body:
undefined and the empty string are falsy. -/
def truthy : Option String → Bool
  | none => false
  | some s => ¬ s = ""

/-- Response bodies of the auth routes. -/
inductive Body where
  | err (msg : String)
  | signinOk (emojiId : String)
  | recoverOk (emojiId : String) (remaining : Nat) (warning : Bool)
  | signupOk (emojiId : String) (plainCodes : List String)
deriving DecidableEq, Repr

/-- A response: HTTP status and JSON body. -/
abbrev Resp := Nat × Body

/-- POST /auth/signin from routes.ts. valid is isValidEmojiId (module
not in the tree; the handler only branches on it), derive is pbkdf2,
hashToken the session token digest, token/sid/now the fresh token and
row id and clock of createSession. Returns the response and the
resulting store. -/
def signin (valid : String → Bool)
    (derive : String → String → String) (hashToken : String → String)
    (db : DB) (emojiId icalUrl : Option String)
    (token : String) (sid now : Nat) : Resp × DB :=
  if ¬ (truthy emojiId ∧ truthy icalUrl) then
    ((400, .err "Emoji ID and iCal URL are required"), db)
  else
    let e := emojiId.getD ""
    let u := icalUrl.getD ""
    if ¬ valid e = true then ((400, .err "Invalid Emoji ID format"), db)
    else
      match db.users.find? (fun x => x.emojiId == e) with
      | none =>
        -- dummy hashIcalUrl call for timing, no store effect
        ((401, .err "Invalid credentials"), db)
      | some user =>
        if verifyIcalUrl derive u ⟨user.icalHash, user.icalSalt⟩ then
          ((200, .signinOk e), createSession hashToken db user.id token sid now)
        else ((401, .err "Invalid credentials"), db)

/-- POST /auth/recover from routes.ts. urlCheck is
isPlausibleIcalUrl (URL-library check, parameter), hashCode the
pbkdf2 of recovery.ts, newSalt the fresh salt drawn when the new
credential is hashed. -/
def recover (valid urlCheck : String → Bool)
    (hashCode derive : String → String → String)
    (hashToken : String → String) (db : DB)
    (emojiId recoveryCode newIcalUrl : Option String)
    (newSalt : String) (token : String) (sid now : Nat) : Resp × DB :=
  if ¬ (truthy emojiId ∧ truthy recoveryCode) then
    ((400, .err "Emoji ID and recovery code are required"), db)
  else
    let e := emojiId.getD ""
    if ¬ valid e = true then ((400, .err "Invalid Emoji ID format"), db)
    else
      match db.users.find? (fun x => x.emojiId == e) with
      | none => ((401, .err "Invalid credentials"), db)
      | some user =>
        let res := consumeRecoveryCode hashCode db.codes user.id
          (recoveryCode.getD "")
        let db1 : DB := { db with codes := res.2 }
        if ¬ res.1 = true then
          ((401, .err "Invalid or already-used recovery code"), db1)
        else
          let finish : DB → Resp × DB := fun dbF =>
            let remaining := remainingRecoveryCodes dbF.codes user.id
            ((200, .recoverOk e remaining (remaining == 0)),
              createSession hashToken dbF user.id token sid now)
          if truthy newIcalUrl then
            let nu := newIcalUrl.getD ""
            if ¬ urlCheck nu = true then
              ((400, .err "Invalid iCal URL"), db1)
            else
              let hc := hashIcalUrl derive nu newSalt
              finish { db1 with users := db1.users.map (fun x =>
                if x.id == user.id then
                  { x with icalHash := hc.hash, icalSalt := hc.salt }
                else x) }
          else finish db1

/-- The Emoji ID resolution step of POST /auth/signup (routes.ts):
a truthy requested id is format-checked then checked against the
store; otherwise one is generated (genResult none models the
generator throwing after its retry bound). -/
inductive SignupIdResult where
  | badFormat
  | taken
  | exhausted
  | chosen (id : String)
deriving DecidableEq, Repr

def resolveEmojiId (valid takenCheck : String → Bool)
    (genResult : Option String) (requestedId : Option String) :
    SignupIdResult :=
  if truthy requestedId then
    let r := requestedId.getD ""
    if ¬ valid r = true then .badFormat
    else if takenCheck r then .taken
    else .chosen r
  else
    match genResult with
    | some g => .chosen g
    | none => .exhausted

/-- Outcome of the external iCal fetch in the signup handler: failure
(network error), or a response with the two sniffed properties the
handler branches on. -/
inductive FetchResult where
  | fetchFail
  | fetched (contentTypeCalendar : Bool) (bodyStartsVcal : Bool)
deriving DecidableEq, Repr

/-- A generated recovery code triple of recovery.ts
generateRecoveryCodes: plain (returned to the user), hash and salt
(stored). -/
structure GeneratedCode where
  plain : String
  hash : String
  salt : String
deriving DecidableEq, Repr

/-- POST /auth/signup from routes.ts, after body parsing. The users
INSERT is its own statement; the recovery-code batch runs inside its
own transaction (storeRecoveryCodes); when that transaction fails the
error propagates out of the handler (Except.error) with the store
left as the failed call left it — there is no surrounding transaction
and no compensating delete of the users row. -/
def signup (urlCheck valid takenCheck : String → Bool)
    (derive : String → String → String) (hashToken : String → String)
    (fetch : FetchResult) (genResult : Option String) (db : DB)
    (requestedId icalUrl : Option String) (salt : String)
    (newUserId : Nat) (genCodes : List GeneratedCode)
    (codeStartId : Nat) (codesInsFails : Bool)
    (token : String) (sid now : Nat) : Except DB (Resp × DB) :=
  if ¬ (truthy icalUrl ∧ urlCheck (icalUrl.getD "") = true) then
    .ok ((400, .err "Invalid iCal URL"), db)
  else
    match fetch with
    | .fetchFail => .ok ((400, .err "Could not fetch iCal URL"), db)
    | .fetched ct vc =>
      if ¬ (ct ∨ vc) then
        .ok ((400, .err "URL does not appear to be an iCal feed"), db)
      else
        match resolveEmojiId valid takenCheck genResult requestedId with
        | .badFormat => .ok ((400, .err "Invalid Emoji ID format"), db)
        | .taken => .ok ((409, .err "Emoji ID already taken"), db)
        | .exhausted => .ok ((503, .err "Could not generate Emoji ID"), db)
        | .chosen emojiId =>
          let hc := hashIcalUrl derive (icalUrl.getD "") salt
          let db1 : DB := { db with users := db.users ++
            [{ id := newUserId, emojiId := emojiId,
               icalHash := hc.hash, icalSalt := hc.salt }] }
          match storeRecoveryCodes db1 newUserId
              (genCodes.map (fun c => (c.hash, c.salt)))
              codeStartId codesInsFails with
          | .error dbE => .error dbE
          | .ok db2 =>
            .ok ((201, .signupOk emojiId (genCodes.map (fun c => c.plain))),
              createSession hashToken db2 newUserId token sid now)

/-- A failed consumeRecoveryCode call leaves the code table
unchanged. -/
theorem consume_fail_snd (hashCode : String → String → String)
    (codes : List StoredRecoveryCode) (uid : Nat) (cand : String)
    (h : (consumeRecoveryCode hashCode codes uid cand).1 = false) :
    (consumeRecoveryCode hashCode codes uid cand).2 = codes := by
  rw [consumeRecoveryCode] at h ⊢
  cases hd : consumeDecide hashCode (consumeSelect codes uid) cand with
  | none => rfl
  | some i =>
    rw [hd] at h
    exact absurd h (by simp [consumeApply])

/-- Claim C10: a signup request whose emojiId field is the empty
string takes exactly the path of an omitted field: the truthiness test
of the handler is false, so format validation and the taken-check are
skipped and the outcome is the auto-generation branch — the whole
signup behaves identically to one with the field omitted. -/
theorem signup_empty_emoji_treated_as_omitted
    (urlCheck valid takenCheck : String → Bool)
    (derive : String → String → String) (hashToken : String → String)
    (fetch : FetchResult) (genResult : Option String) (db : DB)
    (icalUrl : Option String) (salt : String) (newUserId : Nat)
    (genCodes : List GeneratedCode) (codeStartId : Nat)
    (codesInsFails : Bool) (token : String) (sid now : Nat) :
    resolveEmojiId valid takenCheck genResult (some "")
      = resolveEmojiId valid takenCheck genResult none ∧
    resolveEmojiId valid takenCheck genResult (some "")
      = (match genResult with
         | some g => .chosen g
         | none => .exhausted) ∧
    resolveEmojiId valid takenCheck genResult (some "") ≠ .badFormat ∧
    resolveEmojiId valid takenCheck genResult (some "") ≠ .taken ∧
    signup urlCheck valid takenCheck derive hashToken fetch genResult db
        (some "") icalUrl salt newUserId genCodes codeStartId
        codesInsFails token sid now
      = signup urlCheck valid takenCheck derive hashToken fetch genResult db
        none icalUrl salt newUserId genCodes codeStartId
        codesInsFails token sid now := by
  have h1 : truthy (some "") = false := by decide
  have hres : resolveEmojiId valid takenCheck genResult (some "")
      = resolveEmojiId valid takenCheck genResult none := by
    rw [resolveEmojiId.eq_def, resolveEmojiId.eq_def]
    simp [h1, truthy]
  refine ⟨hres, ?_, ?_, ?_, ?_⟩
  · cases genResult <;> (rw [resolveEmojiId.eq_def]; simp [h1])
  · cases genResult <;> (rw [resolveEmojiId.eq_def]; simp [h1])
  · cases genResult <;> (rw [resolveEmojiId.eq_def]; simp [h1])
  · rw [signup.eq_def, signup.eq_def, hres]

/-- Witness for C10 at concrete parameters: the empty-string field
resolves like the omitted field. -/
theorem signup_empty_emoji_treated_as_omitted_witness :
    resolveEmojiId (fun _ => true) (fun _ => true) (some "GGGG") (some "")
      = resolveEmojiId (fun _ => true) (fun _ => true) (some "GGGG") none :=
  (signup_empty_emoji_treated_as_omitted (fun _ => true) (fun _ => true)
    (fun _ => true) toyDerive (fun t => t) (.fetched true true)
    (some "GGGG") ⟨[], [], []⟩ (some "u") "s" 1 [] 10 false "t" 1 0).1

/-- Claim C2 counterexample: two recover runs that differ only in the
authentication-failure sub-case return different responses. Run one:
the identifier is unknown (empty users table) — 401 with body
"Invalid credentials". Run two: the account exists but no unused code
matches (empty code table) — 401 with body "Invalid or already-used
recovery code". The caller distinguishes the sub-cases, so the single
generic invalid-credentials result claimed does not hold across the
recover sub-cases. -/
theorem recover_subcases_distinguishable :
    (recover (fun _ => true) (fun _ => true) toyHashCode toyDerive
        (fun t => t) ⟨[], [], []⟩ (some "EEEE") (some "c") none
        "s" "t" 1 0).1
      ≠ (recover (fun _ => true) (fun _ => true) toyHashCode toyDerive
        (fun t => t) ⟨[⟨7, "EEEE", "", ""⟩], [], []⟩ (some "EEEE")
        (some "c") none "s" "t" 1 0).1 := by
  decide

/-- Claim C2 (amended): within signin the two failure sub-cases
(unknown identifier, credential mismatch) return the identical
response, 401 with body "Invalid credentials", and the store is left
unchanged, so they are indistinguishable; within recover both failure
sub-cases share status 401 but carry different bodies — "Invalid
credentials" for an unknown identifier, "Invalid or already-used
recovery code" when no unused code matches — so the recover sub-cases
are distinguishable by the caller. -/
theorem failure_response_by_subcase
    (valid urlCheck : String → Bool)
    (hashCode derive : String → String → String)
    (hashToken : String → String) (db : DB)
    (e u c newSalt token : String) (sid now : Nat)
    (he : ¬ e = "") (hu : ¬ u = "") (hc : ¬ c = "")
    (hv : valid e = true) :
    (db.users.find? (fun x => x.emojiId == e) = none →
      signin valid derive hashToken db (some e) (some u) token sid now
        = ((401, .err "Invalid credentials"), db) ∧
      recover valid urlCheck hashCode derive hashToken db (some e)
          (some c) none newSalt token sid now
        = ((401, .err "Invalid credentials"), db)) ∧
    (∀ user, db.users.find? (fun x => x.emojiId == e) = some user →
      (verifyIcalUrl derive u ⟨user.icalHash, user.icalSalt⟩ = false →
        signin valid derive hashToken db (some e) (some u) token sid now
          = ((401, .err "Invalid credentials"), db)) ∧
      ((consumeRecoveryCode hashCode db.codes user.id c).1 = false →
        recover valid urlCheck hashCode derive hashToken db (some e)
            (some c) none newSalt token sid now
          = ((401, .err "Invalid or already-used recovery code"), db))) := by
  constructor
  · intro hfind
    constructor
    · rw [signin]
      simp [truthy, he, hu, hv, hfind]
    · rw [recover]
      simp [truthy, he, hc, hv, hfind]
  · intro user hfind
    constructor
    · intro hverify
      rw [signin]
      simp [truthy, he, hu, hv, hfind, hverify]
    · intro hcons
      rw [recover]
      simp only [truthy, he, hc, hv, hfind]
      have hsnd := consume_fail_snd hashCode db.codes user.id c hcons
      simp [truthy, he, hc, hv, hfind, hcons, hsnd]

/-- Witness for the C2 amended theorem on a concrete store: the two
signin failure sub-cases produce the identical response, while the
recover code-failure sub-case produces the distinct body. -/
theorem failure_response_by_subcase_witness :
    signin (fun _ => true) toyDerive (fun t => t) ⟨[], [], []⟩
        (some "EEEE") (some "u") "t" 1 0
      = ((401, .err "Invalid credentials"), ⟨[], [], []⟩) ∧
    recover (fun _ => true) (fun _ => true) toyHashCode toyDerive
        (fun t => t) ⟨[⟨7, "EEEE", "zz", "s"⟩], [], []⟩ (some "EEEE")
        (some "c") none "s" "t" 1 0
      = ((401, .err "Invalid or already-used recovery code"),
         ⟨[⟨7, "EEEE", "zz", "s"⟩], [], []⟩) := by
  have hA := failure_response_by_subcase (fun _ => true) (fun _ => true)
    toyHashCode toyDerive (fun t => t) ⟨[], [], []⟩
    "EEEE" "u" "c" "s" "t" 1 0
    (by decide) (by decide) (by decide) rfl
  have hB := failure_response_by_subcase (fun _ => true) (fun _ => true)
    toyHashCode toyDerive (fun t => t) ⟨[⟨7, "EEEE", "zz", "s"⟩], [], []⟩
    "EEEE" "u" "c" "s" "t" 1 0
    (by decide) (by decide) (by decide) rfl
  exact ⟨(hA.1 rfl).1,
    (hB.2 ⟨7, "EEEE", "zz", "s"⟩ rfl).2 (by decide)⟩

/-- Claim C9: in a recover request whose presented code matches the
unique unused code of the account but whose supplied new credential
source then fails the format validation, the handler returns the 400
validation error, the consumed code stays marked used — it is not
refunded — the stored credential pair of every account is unchanged,
and no session row is added. -/
theorem recover_no_refund_on_invalid_new_url
    (valid urlCheck : String → Bool)
    (hashCode derive : String → String → String)
    (hashToken : String → String) (db : DB)
    (e c nu newSalt token : String) (sid now : Nat)
    (user : UserRow) (r : StoredRecoveryCode)
    (he : ¬ e = "") (hc : ¬ c = "") (hnu : ¬ nu = "")
    (hv : valid e = true)
    (hfind : db.users.find? (fun x => x.emojiId == e) = some user)
    (hr : r ∈ db.codes) (huid : r.userId = user.id)
    (hunused : r.used = false)
    (hm : codeMatches hashCode c r = true)
    (huniq : ∀ x ∈ db.codes, x.userId = user.id → x.used = false →
      codeMatches hashCode c x = true → x = r)
    (hpl : urlCheck nu = false) :
    recover valid urlCheck hashCode derive hashToken db (some e) (some c)
        (some nu) newSalt token sid now
      = ((400, .err "Invalid iCal URL"),
         { db with codes := markUsed db.codes r.id }) ∧
    { r with used := true } ∈ markUsed db.codes r.id ∧
    ({ db with codes := markUsed db.codes r.id } : DB).users = db.users ∧
    ({ db with codes := markUsed db.codes r.id } : DB).sessions
      = db.sessions := by
  have hcons := consume_eq_of_unique_match hashCode db.codes user.id c r
    hr huid hunused hm huniq
  refine ⟨?_, ?_, rfl, rfl⟩
  · rw [recover]
    simp [truthy, he, hc, hnu, hv, hfind, hcons, hpl]
  · rw [markUsed]
    exact List.mem_map.mpr ⟨r, hr, by simp⟩

/-- Witness for C9 on a concrete store: the response is the 400
validation error and the resulting store has the code marked used
while users and sessions are untouched. -/
theorem recover_no_refund_on_invalid_new_url_witness :
    recover (fun _ => true) (fun _ => false) toyHashCode toyDerive
        (fun t => t) ⟨[⟨7, "EEEE", "zz", "s"⟩], toyCodes, []⟩
        (some "EEEE") (some "c") (some "n") "s" "t" 1 0
      = ((400, .err "Invalid iCal URL"),
         ⟨[⟨7, "EEEE", "zz", "s"⟩], markUsed toyCodes 1, []⟩) := by
  have h := recover_no_refund_on_invalid_new_url (fun _ => true)
    (fun _ => false) toyHashCode toyDerive (fun t => t)
    ⟨[⟨7, "EEEE", "zz", "s"⟩], toyCodes, []⟩ "EEEE" "c" "n" "s" "t" 1 0
    ⟨7, "EEEE", "zz", "s"⟩ ⟨1, 7, "aa", "s", false⟩
    (by decide) (by decide) (by decide) rfl (by decide) (by decide)
    rfl rfl (by decide) (by decide) rfl
  exact h.1

/-- The store state left behind by the failing signup of claim C1: the
account row is committed, but no recovery code and no session exists
for it. -/
def dbAfterFailedSignup : DB :=
  ⟨[{ id := 1, emojiId := "GGGG", icalHash := "01", icalSalt := "s" }], [], []⟩

/-- Claim C1: refuted on the code — the users INSERT runs as its own
statement outside any transaction; only the five code INSERTs share a
transaction. When the recovery-code batch fails, storeRecoveryCodes
rolls back the codes only and rethrows; the handler has no
compensating delete, so the already-committed account row stays
observable with zero recovery codes and no session: a partial
account. Evaluated at a concrete signup whose batch insert fails:
the handler throws (Except.error) and the resulting store holds the
new account row, no codes, no sessions. -/
theorem signup_partial_account_on_codes_failure :
    signup (fun _ => true) (fun _ => true) (fun _ => false) toyDerive
        (fun t => t) (.fetched true true) (some "GGGG") ⟨[], [], []⟩
        none (some "u") "s" 1 [⟨"p1", "h1", "s1"⟩] 10 true "t" 1 0
      = .error dbAfterFailedSignup ∧
    dbAfterFailedSignup.users
      = [{ id := 1, emojiId := "GGGG", icalHash := "01", icalSalt := "s" }] ∧
    dbAfterFailedSignup.codes = [] ∧
    dbAfterFailedSignup.sessions = [] := by
  refine ⟨?_, rfl, rfl, rfl⟩
  rfl

end Sched
